import Mathlib

/-!
Shallow embedding of the Appstract update engine (Go sources under
`internal/updater/updater.go` and `internal/manifest`) together with proofs
about the frozen specification claims.

Modelling conventions:
* Go strings are Lean `String`s (ASCII assumed; Unicode-aware case folding
  and whitespace classes of the Go standard library are modelled over the
  ASCII subset actually used by the program).
* Machine integers (PIDs, retention counts) are `Int`.
* Filesystem, network and process effects are modelled by oracle fields of
  an environment record; the pure logic of the Go functions is translated
  line by line.
* `filepath` operations are modelled with `/` as the path separator; the
  Go implementation uses the platform separator but runs the same lexical
  algorithm.
-/

deriving instance DecidableEq for Except

namespace Appstract

/-- ASCII whitespace as recognised by Go's `unicode.IsSpace` (restricted to
the ASCII range: space, tab, newline, vertical tab, form feed, carriage
return). -/
def goIsSpace (c : Char) : Bool :=
  c = ' ' || c = '\t' || c = '\n' || c = '\x0b' || c = '\x0c' || c = '\r'

/-- Drop leading whitespace characters from a character list. -/
def dropSpaceLeft : List Char → List Char
  | [] => []
  | c :: rest => if goIsSpace c then dropSpaceLeft rest else c :: rest

/-- Model of Go `strings.TrimSpace` (ASCII subset): strip whitespace from
both ends. -/
def goTrimSpace (s : String) : String :=
  ⟨(dropSpaceLeft (dropSpaceLeft s.toList.reverse).reverse)⟩

/-- ASCII lowercase of one character, as Go `strings.ToLower` does for the
ASCII range. -/
def goLowerChar (c : Char) : Char :=
  if 'A' ≤ c ∧ c ≤ 'Z' then Char.ofNat (c.toNat + 32) else c

/-- Model of Go `strings.ToLower` over ASCII strings. -/
def goToLower (s : String) : String :=
  ⟨s.toList.map goLowerChar⟩

/-- Model of Go `strings.HasPrefix`. -/
def goHasPre (s pre : String) : Bool :=
  pre.toList.isPrefixOf s.toList

/-- Model of Go `strings.Contains` (substring occurrence). -/
def goContainsSub (s sub : String) : Bool :=
  (List.range (s.toList.length + 1)).any
    (fun i => sub.toList.isPrefixOf (s.toList.drop i))

/-- Model of Go `strings.ToUpper` applied to the first byte only, as in the
program's `upperFirst` helper. -/
def upperFirst (s : String) : String :=
  match s.toList with
  | [] => s
  | c :: rest =>
    ⟨(if 'a' ≤ c ∧ c ≤ 'z' then Char.ofNat (c.toNat - 32) else c) :: rest⟩

/-- Core loop of Go `strings.Replace(s, old, new, -1)` for a non-empty
pattern: scan left to right, replacing non-overlapping occurrences. -/
def replaceAllAux (pat rep : List Char) : List Char → List Char
  | [] => []
  | c :: rest =>
    if pat ≠ [] ∧ pat.isPrefixOf (c :: rest) then
      rep ++ replaceAllAux pat rep ((c :: rest).drop pat.length)
    else
      c :: replaceAllAux pat rep rest
  termination_by l => l.length
  decreasing_by
    · simp only [List.length_drop, List.length_cons]
      rename_i h
      have hlen : 1 ≤ pat.length := by
        cases pat with
        | nil => exact absurd rfl h.1
        | cons a t => simp
      omega
    · simp

/-- Model of Go `strings.ReplaceAll`.  For an empty pattern Go inserts the
replacement before every rune and at the end. -/
def goReplaceAll (s old new : String) : String :=
  if old = "" then
    new ++ ⟨(s.toList.map (fun c => c :: new.toList)).flatten⟩
  else
    ⟨replaceAllAux old.toList new.toList s.toList⟩

/-- Model of Go `strings.TrimPrefix s "sha256:"`. -/
def dropSha256Tag (s : String) : String :=
  if goHasPre s "sha256:" then ⟨s.toList.drop 7⟩ else s

/-- Lowercase hex alphabet used by Go `encoding/hex`. -/
def hexDigit (n : Nat) : Char :=
  if n < 10 then Char.ofNat (48 + n) else Char.ofNat (97 + (n - 10))

/-- Model of Go `hex.EncodeToString` over a byte list (bytes as `Nat`,
reduced mod 256). -/
def hexEncode (bytes : List Nat) : String :=
  ⟨(bytes.map (fun b => [hexDigit (b % 256 / 16), hexDigit (b % 16)])).flatten⟩

/-- Split a character list on `/` (same result as Go `strings.Split` on
the separator). -/
def splitSlashAux : List Char → List Char → List String
  | [], acc => [⟨acc.reverse⟩]
  | c :: rest, acc =>
    if c = '/' then (⟨acc.reverse⟩ : String) :: splitSlashAux rest []
    else splitSlashAux rest (c :: acc)

/-- Split a character list on `/`. -/
def splitSlash (l : List Char) : List String :=
  splitSlashAux l []

/-- Join path elements with `/`. -/
def joinSlash : List String → String
  | [] => ""
  | [x] => x
  | x :: rest => x ++ "/" ++ joinSlash rest

/-- One step of Go `path.Clean`'s element processing: push a path element
onto the (reversed) output stack. -/
def cleanStep (rooted : Bool) (acc : List String) (c : String) : List String :=
  if c = ".." then
    match acc with
    | [] => if rooted then [] else [".."]
    | a :: rest => if a = ".." then ".." :: a :: rest else rest
  else
    c :: acc

/-- Model of Go `filepath.Clean` for `/`-separated paths (no volume names;
the Go implementation applies the same lexical algorithm with the platform
separator). -/
def goClean (p : String) : String :=
  if p = "" then "." else
  let rooted := goHasPre p "/"
  let comps := (splitSlash p.toList).filter (fun c => c ≠ "" && c ≠ ".")
  let out := (comps.foldl (cleanStep rooted) []).reverse
  let joined := joinSlash out
  if rooted then "/" ++ joined
  else if joined = "" then "." else joined

/-- Model of Go `filepath.Join` for two elements: empty elements are
skipped and the result is `Clean`ed. -/
def goJoin (a b : String) : String :=
  if a = "" ∧ b = "" then ""
  else if a = "" then goClean b
  else if b = "" then goClean a
  else goClean (a ++ "/" ++ b)

/-! ### Manifest model (`internal/manifest`) -/

/-- One `64bit` artifact block of a manifest. -/
structure Artifact where
  url : String
  hash : String
  extractSubdir : String
  deriving Repr, DecidableEq

/-- The manifest fields used by the updater.  `arch64` is
`architecture.64bit`, `autoupdate64` is `autoupdate.architecture.64bit`,
`topHash` is the optional top-level `hash` fallback. -/
structure Manifest where
  version : String
  bin : String
  topHash : String
  arch64 : Artifact
  autoupdate64 : Artifact
  preInstall : List String
  checkverGitHub : String
  checkverRegex : String
  checkverReplace : String
  deriving Repr, DecidableEq

/-- Model of `Manifest.ResolveArtifact64`: prefer `architecture.64bit` when
its URL is set, else `autoupdate.architecture.64bit`; promote the top-level
hash when the chosen block has none; fail when URL or hash stays empty. -/
def Manifest.ResolveArtifact64 (m : Manifest) : Except String Artifact :=
  let artifact := if m.arch64.url = "" then m.autoupdate64 else m.arch64
  if artifact.url = "" then
    .error "manifest 64bit artifact url is required"
  else
    let artifact :=
      if artifact.hash = "" ∧ m.topHash ≠ "" then
        { artifact with hash := m.topHash }
      else artifact
    if artifact.hash = "" then
      .error "manifest 64bit artifact hash is required"
    else
      .ok artifact

/-- Model of `renderTemplate`: substitute `${k}`, `$k` and `$matchK` for
every capture.  Go iterates the capture map in unspecified order; the model
fixes the order of the capture list. -/
def renderTemplate (template : String) (captures : List (String × String)) : String :=
  if template = "" then ""
  else
    captures.foldl
      (fun out kv =>
        let out := goReplaceAll out ("$\x7b" ++ kv.1 ++ "\x7d") kv.2
        let out := goReplaceAll out ("$" ++ kv.1) kv.2
        goReplaceAll out ("$match" ++ upperFirst kv.1) kv.2)
      template

/-- Result of the network part of `DiscoverLatest`: either an error or a
discovered version string with its named captures. -/
abbrev DiscoverResult := Except String (String × List (String × String))

/-- Model of `Manager.DiscoverLatest`: when any `checkver` field is empty
the discoverer is a no-op returning an empty version; otherwise the GitHub
release query is the oracle `discover`. -/
def discoverLatest (discover : DiscoverResult) (man : Manifest) : DiscoverResult :=
  if man.checkverGitHub = "" ∨ man.checkverRegex = "" ∨ man.checkverReplace = "" then
    .ok ("", [])
  else discover

/-- Model of `Manager.applyCheckver`: on a strictly newer discovered
version, re-template the autoupdate block, clear its hash, install it as
the effective artifact and re-run the resolver. -/
def applyCheckver (discover : DiscoverResult) (man : Manifest) : Except String Manifest :=
  match discoverLatest discover man with
  | .error e => .error e
  | .ok (version, captures) =>
    if version = "" ∨ version = man.version then .ok man
    else
      let artifact := man.autoupdate64
      if artifact.url = "" then
        .error ("checkver found newer version " ++ version ++
          " but autoupdate.64bit.url is empty")
      else
        let artifact :=
          { artifact with
            url := renderTemplate artifact.url captures
            extractSubdir := renderTemplate artifact.extractSubdir captures
            hash := "" }
        let man' := { man with version := version, arch64 := artifact }
        match man'.ResolveArtifact64 with
        | .error e =>
          .error ("checkver resolved newer version " ++ version ++
            " but no verifiable hash is available: " ++ e)
        | .ok _ => .ok man'

/-! ### Verifier (`verifySHA256`) -/

/-- Model of `verifySHA256`.  `digest` is the SHA-256 digest of the file
(the hashing itself is I/O); the comparison logic is translated exactly:
the actual digest is hex-encoded lowercase, the expected string has a
`sha256:` tag stripped and is lowercased. -/
def verifySHA256 (digest : List Nat) (expected : String) : Except String Unit :=
  let actual := hexEncode digest
  let cleanExpected := goToLower (dropSha256Tag expected)
  if actual = cleanExpected then .ok ()
  else .error ("sha256 mismatch: expected " ++ cleanExpected ++ " got " ++ actual)

/-! ### Extractor (`unzip`) -/

/-- One archive entry: its declared name and whether it is a directory. -/
structure ZipEntry where
  name : String
  isDir : Bool
  deriving Repr, DecidableEq

/-- The traversal guard of `unzip` for one entry: the cleaned target must
start with the cleaned destination followed by a separator. -/
def zipEntryOk (dst : String) (e : ZipEntry) : Bool :=
  goHasPre (goClean (goJoin dst e.name)) (goClean dst ++ "/")

/-- The path at which `unzip` materialises an entry. -/
def zipEntryTarget (dst : String) (e : ZipEntry) : String :=
  goClean (goJoin dst e.name)

/-- Model of the `unzip` loop: process entries in order, recording the
paths written; stop with an error at the first entry whose cleaned path
escapes the destination, without writing that entry. -/
def unzipRun (dst : String) : List ZipEntry → List String × Option String
  | [] => ([], none)
  | e :: rest =>
    if zipEntryOk dst e then
      let r := unzipRun dst rest
      (zipEntryTarget dst e :: r.1, r.2)
    else
      ([], some ("invalid zip path: " ++ e.name))

/-! ### Lock manager (`acquireLock`, `lockFileIsStale`) -/

/-- The observable content of a lock file: empty or whitespace-only,
malformed JSON, or a decoded `{pid, created_at}` record (the timestamp is
irrelevant to the logic). -/
inductive LockContent where
  | blank
  | malformed
  | info (pid : Int)
  deriving Repr, DecidableEq

/-- A lock path's state: `none` when no file exists. -/
abbrev LockState := Option LockContent

/-- Liveness oracle for `isPIDRunning`, queried only for positive PIDs. -/
abbrev PidAlive := Int → Except Unit Bool

/-- Model of `lockFileIsStale`: a missing file is stale; empty, malformed,
non-positive-PID content and probe errors are all treated as active. -/
def lockFileIsStale (alive : PidAlive) : LockState → Bool
  | none => true
  | some .blank => false
  | some .malformed => false
  | some (.info pid) =>
    if pid ≤ 0 then false
    else
      match alive pid with
      | .error _ => false
      | .ok running => !running

/-- Model of `tryAcquireLock`: exclusive-create, writing the caller's PID;
fails when the file already exists. -/
def tryAcquireLock (self : Int) : LockState → Except Unit LockState
  | some _ => .error ()
  | none => .ok (some (.info self))

/-- Model of `acquireLock`: exclusive-create; on conflict consult
`lockFileIsStale`, remove a stale lock and retry exactly once, otherwise
fail with `update already running`.  Returns the resulting lock state (the
original content is kept on failure). -/
def acquireLock (alive : PidAlive) (self : Int) (st : LockState) :
    Except String Unit × LockState :=
  match tryAcquireLock self st with
  | .ok st' => (.ok (), st')
  | .error _ =>
    if lockFileIsStale alive st then
      match tryAcquireLock self none with
      | .ok st' => (.ok (), st')
      | .error _ => (.error "update already running", st)
    else
      (.error "update already running", st)

/-! ### Current-pointer switcher -/

/-- The materialisation of the `current` path: absent, a directory
junction/symlink to a target, or the fallback plain directory holding the
`.appstract-target` marker file. -/
inductive CurrentFS where
  | absent
  | junction (target : String)
  | markerDir (content : String)
  deriving Repr, DecidableEq

/-- Model of `resolveCurrentTarget`: link resolution first, then the
marker file with surrounding whitespace trimmed; a missing pointer yields
the empty string. -/
def resolveCurrentTarget : CurrentFS → String
  | .absent => ""
  | .junction t => t
  | .markerDir c => goTrimSpace c

/-- Model of `switchCurrent`: remove `current`, then either create a
junction (when the platform operation succeeds) or fall back to a marker
directory whose file contains the target path.  `outcome` is the oracle
for the filesystem effects: an error, or `ok isJunction`. -/
def switchCurrent (outcome : Except String Bool) (target : String) :
    Except String CurrentFS :=
  match outcome with
  | .error e => .error e
  | .ok true => .ok (.junction target)
  | .ok false => .ok (.markerDir target)

/-- Model of `rollbackCurrent`: a no-op reporting success when there was
no previous target, otherwise a fresh `switchCurrent` to the previous
target.  On error the caller's pointer state is left as it was. -/
def rollbackCurrent (outcome : Except String Bool) (cur : CurrentFS)
    (prevTarget : String) : Except String CurrentFS :=
  if prevTarget = "" then .ok cur
  else switchCurrent outcome prevTarget

/-! ### Garbage collector (`cleanupOldVersions`) -/

/-- A directory entry of `apps/<app>/` as seen by `os.ReadDir`, with its
modification time (the model assumes `Info()` succeeds for every entry). -/
structure DirEnt where
  name : String
  isDir : Bool
  mtime : Nat
  deriving Repr, DecidableEq

/-- Most-recent-first ordering used by the cleanup sort. -/
def mtimeGE (a b : DirEnt) : Prop := b.mtime ≤ a.mtime

instance : DecidableRel mtimeGE := fun a b => by
  unfold mtimeGE; infer_instance

instance : IsTotal DirEnt mtimeGE :=
  ⟨fun a b => le_total b.mtime a.mtime⟩

instance : IsTrans DirEnt mtimeGE :=
  ⟨fun _ _ _ h1 h2 => le_trans h2 h1⟩

/-- The non-current version directories considered by the collector:
directories whose name starts with `v` and differs from the current
version's directory name. -/
def oldVersionDirs (currentVersion : String) (entries : List DirEnt) : List DirEnt :=
  entries.filter
    (fun e => e.isDir && goHasPre e.name "v" && e.name ≠ "v" ++ currentVersion)

/-- Effective retention count: a negative configured value is clamped
to zero. -/
def keepClamp (keep : Int) : Nat :=
  if keep < 0 then 0 else keep.toNat

/-- Model of the pure decision core of `cleanupOldVersions`: the names the
collector removes.  Go sorts with an unstable sort on strictly-greater
mtime; the model uses insertion sort, which agrees whenever mtimes are
distinct. -/
def cleanupRemoved (keep : Int) (currentVersion : String)
    (entries : List DirEnt) : List String :=
  let old := oldVersionDirs currentVersion entries
  let keepN := keepClamp keep
  if old.length ≤ keepN then []
  else ((old.insertionSort mtimeGE).drop keepN).map (fun e => e.name)

/-! ### Error-code constants (`internal/updater/errors.go`) -/

def ErrCodeNetCheckverRequest : String := "NET_CHECKVER_REQUEST"
def ErrCodeNetCheckverHTTP : String := "NET_CHECKVER_HTTP"
def ErrCodeNetDownload : String := "NET_DOWNLOAD"
def ErrCodePkgDownload : String := "PKG_DOWNLOAD"
def ErrCodePkgVerify : String := "PKG_VERIFY"
def ErrCodePkgExtract : String := "PKG_EXTRACT"
def ErrCodeScriptPreInstall : String := "SCRIPT_PREINSTALL"
def ErrCodeSwitchPrompt : String := "SWITCH_PROMPT"
def ErrCodeSwitchProcess : String := "SWITCH_PROCESS"
def ErrCodeSwitchCurrent : String := "SWITCH_CURRENT"
def ErrCodeSwitchHealthcheck : String := "SWITCH_HEALTHCHECK"
def ErrCodeSwitchRollback : String := "SWITCH_ROLLBACK"

/-- The spec's error taxonomy (section 7 of the specification). -/
def taxonomyTags : List String :=
  ["MANIFEST_INCOMPLETE", "ALREADY_RUNNING",
   ErrCodeNetCheckverRequest, ErrCodeNetCheckverHTTP, ErrCodeNetDownload,
   ErrCodePkgDownload, ErrCodePkgVerify, ErrCodePkgExtract,
   ErrCodeScriptPreInstall, ErrCodeSwitchPrompt, ErrCodeSwitchProcess,
   ErrCodeSwitchCurrent, ErrCodeSwitchHealthcheck, ErrCodeSwitchRollback]

/-! ### Runtime state, event log, and the update transaction -/

/-- Model of the persisted `RuntimeState` (`runtime.json`). -/
structure RuntimeState where
  currentVersion : String
  lastCheckAt : String
  lastUpdateAt : String
  lastErrorCode : String
  lastErrorMsg : String
  pendingVersion : String
  deriving Repr, DecidableEq

/-- The zero value of `RuntimeState`, returned by `loadState` when the
file is missing. -/
def zeroState : RuntimeState := ⟨"", "", "", "", "", ""⟩

/-- One event-log record (timestamps are environment-supplied and not
tracked by the model). -/
structure EventRec where
  stage : String
  event : String
  errorCode : String
  message : String
  deriving Repr, DecidableEq

/-- Outcome of `terminateProcesses`: success, an error raised before the
forced-kill loop, or a forced-kill failure (which additionally logs a
`SWITCH_PROCESS_FORCE_FAILED` event inside the supervisor). -/
inductive TermOutcome where
  | success
  | failBefore (msg : String)
  | failForce (msg : String)
  deriving Repr, DecidableEq

/-- Environment of one `Manager.Update` call: the manager configuration
plus one oracle per filesystem/network/process effect.  `loadState` and
`saveState` are assumed to succeed (the state file is readable and
writable); the best-effort event-log writes always succeed. -/
structure UpdateEnv where
  root : String
  now : String
  useCheckver : Bool
  promptSwitch : Bool
  relaunch : Bool
  keepVersions : Int
  selfPid : Int
  discover : DiscoverResult
  lockState : LockState
  pidAlive : PidAlive
  initialStateFile : Option RuntimeState
  removeStagingOk : Bool
  mkdirStagingOk : Bool
  downloadResult : Except String Unit
  downloadedDigest : List Nat
  unzipResult : Except String Unit
  sourceDirExists : Bool
  preInstallResult : Except String Unit
  removeVersionDirOk : Bool
  renameOk : Bool
  initialCurrent : CurrentFS
  confirmResult : Except String Bool
  termOutcome : TermOutcome
  switchOutcome : Except String Bool
  binExists : Bool
  launchResult : Except String Unit
  rollbackOutcome : Except String Bool
  appDirEntries : List DirEnt
  cleanupFsOk : Bool
  removeStagingFinalOk : Bool

/-- Observable effects of one `Update` call. -/
structure UpdateWorld where
  stateFile : Option RuntimeState
  events : List EventRec
  lock : LockState
  current : CurrentFS
  downloadInvoked : Bool
  removedDirs : List String
  deriving Repr

/-- The world before `Update` runs. -/
def initialWorld (env : UpdateEnv) : UpdateWorld :=
  ⟨env.initialStateFile, [], env.lockState, env.initialCurrent, false, []⟩

/-- Append one event-log record (`logEvent`; write failures are swallowed
in Go, so the model always appends). -/
def logEv (w : UpdateWorld) (stage event code msg : String) : UpdateWorld :=
  { w with events := w.events ++ [⟨stage, event, code, msg⟩] }

/-- Persist the runtime state (`saveState`, assumed to succeed). -/
def saveSt (w : UpdateWorld) (s : RuntimeState) : UpdateWorld :=
  { w with stateFile := some s }

/-- The state `loadState` yields: the file content, or the zero value when
the file is missing. -/
def loadedState (env : UpdateEnv) : RuntimeState :=
  env.initialStateFile.getD zeroState

/-- Model of `healthcheckAndRelaunch`: the bin must be declared and must
stat under `current`; when relaunch is enabled the detached spawn must
succeed. -/
def healthcheckAndRelaunch (env : UpdateEnv) (bin binPath : String) :
    Except String Unit :=
  if bin = "" then .error "manifest bin is required"
  else if !env.binExists then .error ("healthcheck missing bin " ++ binPath)
  else if env.relaunch then
    match env.launchResult with
    | .error e => .error ("relaunch failed: " ++ e)
    | .ok _ => .ok ()
  else .ok ()

/-- Model of `runPreInstall`: an immediate success on an empty step list,
otherwise the script-execution oracle. -/
def runPreInstall (env : UpdateEnv) (steps : List String) : Except String Unit :=
  if steps.isEmpty then .ok () else env.preInstallResult

/-- The resolve stage of `Update` (lines 113-123): optional version
discovery followed by artifact resolution. -/
def resolveStage (env : UpdateEnv) (man : Manifest) :
    Except String (Manifest × Artifact) :=
  match (if env.useCheckver then applyCheckver env.discover man else .ok man) with
  | .error e => .error e
  | .ok eff =>
    match eff.ResolveArtifact64 with
    | .error e => .error e
    | .ok artifact => .ok (eff, artifact)

/-- `apps/<app>` under the managed root. -/
def appDirOf (env : UpdateEnv) (app : String) : String :=
  env.root ++ "/apps/" ++ app

/-- The version directory `apps/<app>/v<version>`. -/
def versionDirOf (env : UpdateEnv) (app version : String) : String :=
  appDirOf env app ++ "/v" ++ version

/-- The binary path checked by the health check,
`apps/<app>/current/<bin>`. -/
def binPathOf (env : UpdateEnv) (app bin : String) : String :=
  appDirOf env app ++ "/current" ++ "/" ++ bin

/-- Tail of the transaction shared by the healthcheck-failure branch. -/
def updateHealthFail (env : UpdateEnv) (w : UpdateWorld) (s : RuntimeState)
    (prevTarget e : String) : Except String Unit × UpdateWorld :=
  let rb := rollbackCurrent env.rollbackOutcome w.current prevTarget
  let s := { s with pendingVersion := "", lastErrorCode := ErrCodeSwitchHealthcheck,
                    lastErrorMsg := e }
  let w := logEv w "healthcheck" "SWITCH_HEALTHCHECK_FAILED" ErrCodeSwitchHealthcheck e
  match rb with
  | .error re =>
    let s := { s with lastErrorCode := ErrCodeSwitchRollback, lastErrorMsg := re }
    let w := logEv w "rollback" "SWITCH_ROLLBACK_FAILED" ErrCodeSwitchRollback re
    let w := saveSt w s
    (.error ("healthcheck failed: " ++ e ++ "; rollback failed: " ++ re),
      { w with lock := none })
  | .ok fs =>
    let w := { w with current := fs }
    let w := saveSt w s
    let w := logEv w "rollback" "SWITCH_ROLLBACK_DONE" ""
      "rollback to previous current completed"
    (.error e, { w with lock := none })

/-- Model of `Manager.Update`: the full transaction, translated branch by
branch from the Go source.  Returns the Go error result together with the
final observable world.  The lock is released (`defer releaseLock`) on
every exit path past acquisition. -/
def Update (env : UpdateEnv) (appName : String) (man : Option Manifest) :
    Except String Unit × UpdateWorld :=
  let w := initialWorld env
  if appName = "" then (.error "app name is required", w)
  else
    match man with
    | none => (.error "manifest is required", w)
    | some man =>
      match resolveStage env man with
      | .error e => (.error e, w)
      | .ok (eff, artifact) =>
        let w := logEv w "update" "UPDATE_BEGIN" "" "update transaction started"
        match acquireLock env.pidAlive env.selfPid env.lockState with
        | (.error e, lk) => (.error e, { w with lock := lk })
        | (.ok _, lk) =>
          let w := { w with lock := lk }
          let s := { loadedState env with lastCheckAt := env.now }
          let appDir := appDirOf env appName
          if s.currentVersion = eff.version ∧ s.currentVersion ≠ "" then
            let s := { s with pendingVersion := "" }
            let w := saveSt w s
            if env.cleanupFsOk then
              let w := { w with
                removedDirs := cleanupRemoved env.keepVersions eff.version env.appDirEntries }
              (.ok (), { w with lock := none })
            else
              (.error "read app directory for cleanup failed", { w with lock := none })
          else
            if !env.removeStagingOk then
              (.error "cleanup old staging failed", { w with lock := none })
            else if !env.mkdirStagingOk then
              (.error "create staging failed", { w with lock := none })
            else
              let s := { s with pendingVersion := eff.version }
              let w := saveSt w s
              let staging := appDir ++ "/_staging/v" ++ eff.version
              let archivePath := staging ++ "/package.zip"
              let versionDir := versionDirOf env appName eff.version
              let w := logEv w "download" "PKG_DOWNLOAD_BEGIN" "" artifact.url
              let w := { w with downloadInvoked := true }
              match env.downloadResult with
              | .error e =>
                let s := { s with pendingVersion := "", lastErrorCode := ErrCodePkgDownload,
                                  lastErrorMsg := e }
                let w := logEv w "download" "PKG_DOWNLOAD_FAILED" ErrCodePkgDownload e
                let w := saveSt w s
                (.error e, { w with lock := none })
              | .ok _ =>
                let w := logEv w "download" "PKG_DOWNLOAD_DONE" "" archivePath
                match verifySHA256 env.downloadedDigest artifact.hash with
                | .error e =>
                  let s := { s with pendingVersion := "", lastErrorCode := ErrCodePkgVerify,
                                    lastErrorMsg := e }
                  let w := logEv w "verify" "PKG_VERIFY_FAILED" ErrCodePkgVerify e
                  let w := saveSt w s
                  (.error e, { w with lock := none })
                | .ok _ =>
                  let w := logEv w "verify" "PKG_VERIFY_DONE" "" "sha256 verified"
                  match env.unzipResult with
                  | .error e =>
                    let s := { s with pendingVersion := "", lastErrorCode := ErrCodePkgExtract,
                                      lastErrorMsg := e }
                    let w := logEv w "extract" "PKG_EXTRACT_FAILED" ErrCodePkgExtract e
                    let w := saveSt w s
                    (.error e, { w with lock := none })
                  | .ok _ =>
                    let extractedRoot := staging ++ "/extracted"
                    let w := logEv w "extract" "PKG_EXTRACT_DONE" "" extractedRoot
                    if !env.sourceDirExists then
                      (.error "source extract directory missing: stat failed",
                        { w with lock := none })
                    else
                      let w := logEv w "script" "SCRIPT_PREINSTALL_BEGIN" ""
                        "running pre_install hooks"
                      match runPreInstall env eff.preInstall with
                      | .error e =>
                        let s := { s with pendingVersion := "",
                                          lastErrorCode := ErrCodeScriptPreInstall,
                                          lastErrorMsg := e }
                        let w := logEv w "script" "SCRIPT_PREINSTALL_FAILED"
                          ErrCodeScriptPreInstall e
                        let w := saveSt w s
                        (.error e, { w with lock := none })
                      | .ok _ =>
                        let w := logEv w "script" "SCRIPT_PREINSTALL_DONE" ""
                          "pre_install completed"
                        if !env.removeVersionDirOk then
                          (.error "cleanup version dir failed", { w with lock := none })
                        else if !env.renameOk then
                          (.error "move extracted version failed", { w with lock := none })
                        else
                          let prevTarget := resolveCurrentTarget env.initialCurrent
                          match (if env.promptSwitch then some env.confirmResult else none) with
                          | some (.error e) =>
                            let s := { s with pendingVersion := "",
                                              lastErrorCode := ErrCodeSwitchPrompt,
                                              lastErrorMsg := e }
                            let w := saveSt w s
                            (.error e, { w with lock := none })
                          | some (.ok false) =>
                            let s := { s with pendingVersion := "" }
                            let w := logEv w "switch" "SWITCH_USER_DECLINED" ""
                              "user declined immediate switch"
                            let w := saveSt w s
                            (.ok (), { w with lock := none })
                          | _ =>
                            let w := logEv w "switch" "SWITCH_PROCESS_BEGIN" ""
                              "begin process stop for current path"
                            match env.termOutcome with
                            | .failForce e =>
                              let w := logEv w "process" "SWITCH_PROCESS_FORCE_FAILED"
                                ErrCodeSwitchProcess e
                              let s := { s with pendingVersion := "",
                                                lastErrorCode := ErrCodeSwitchProcess,
                                                lastErrorMsg := e }
                              let w := logEv w "switch" "SWITCH_PROCESS_FAILED"
                                ErrCodeSwitchProcess e
                              let w := saveSt w s
                              (.error e, { w with lock := none })
                            | .failBefore e =>
                              let s := { s with pendingVersion := "",
                                                lastErrorCode := ErrCodeSwitchProcess,
                                                lastErrorMsg := e }
                              let w := logEv w "switch" "SWITCH_PROCESS_FAILED"
                                ErrCodeSwitchProcess e
                              let w := saveSt w s
                              (.error e, { w with lock := none })
                            | .success =>
                              let w := logEv w "switch" "SWITCH_PROCESS_DONE" ""
                                "target processes stopped"
                              match switchCurrent env.switchOutcome versionDir with
                              | .error e =>
                                let s := { s with pendingVersion := "",
                                                  lastErrorCode := ErrCodeSwitchCurrent,
                                                  lastErrorMsg := e }
                                let w := logEv w "switch" "SWITCH_CURRENT_FAILED"
                                  ErrCodeSwitchCurrent e
                                let w := saveSt w s
                                (.error e, { w with lock := none })
                              | .ok fs =>
                                let w := { w with current := fs }
                                let w := logEv w "switch" "SWITCH_CURRENT_DONE" ""
                                  "current version switched"
                                match healthcheckAndRelaunch env eff.bin
                                    (binPathOf env appName eff.bin) with
                                | .error e =>
                                  updateHealthFail env w s prevTarget e
                                | .ok _ =>
                                  let w := logEv w "healthcheck" "SWITCH_HEALTHCHECK_DONE"
                                    "" "healthcheck passed"
                                  let s := { s with
                                    currentVersion := eff.version, pendingVersion := "",
                                    lastUpdateAt := env.now, lastErrorCode := "",
                                    lastErrorMsg := "" }
                                  let w := saveSt w s
                                  if !env.cleanupFsOk then
                                    (.error "read app directory for cleanup failed",
                                      { w with lock := none })
                                  else
                                    let w := { w with
                                      removedDirs := cleanupRemoved env.keepVersions
                                        eff.version env.appDirEntries }
                                    let w := logEv w "switch" "SWITCH_DONE" ""
                                      "update switch transaction completed"
                                    let w := logEv w "update" "UPDATE_DONE" ""
                                      "update transaction completed"
                                    if env.removeStagingFinalOk then
                                      (.ok (), { w with lock := none })
                                    else
                                      (.error "remove staging failed", { w with lock := none })

/-- The runtime state a world's `runtime.json` holds (zero state when the
file was never written). -/
def persisted (w : UpdateWorld) : RuntimeState :=
  w.stateFile.getD zeroState

/-- Event names of a world's log, in order. -/
def eventNames (w : UpdateWorld) : List String :=
  w.events.map (fun r => r.event)

/-! ### Concrete instances used by counterexamples and witnesses -/

/-- A well-formed manifest: pinned 64-bit artifact with URL, hash `ab`
and an `extract_dir`. -/
def manA : Manifest where
  version := "1.37.0"
  bin := "a.exe"
  topHash := ""
  arch64 := { url := "https://x/a.zip", hash := "ab", extractSubdir := "sub" }
  autoupdate64 := { url := "", hash := "", extractSubdir := "" }
  preInstall := []
  checkverGitHub := ""
  checkverRegex := ""
  checkverReplace := ""

/-- `manA` with every hash removed: no hash is resolvable. -/
def manNoHash : Manifest :=
  { manA with arch64 := { url := "https://x/a.zip", hash := "", extractSubdir := "" } }

/-- A benign environment in which every effect succeeds: fresh install,
no lock, no checkver, no prompt. -/
def envBase : UpdateEnv where
  root := "D:"
  now := "t0"
  useCheckver := false
  promptSwitch := false
  relaunch := false
  keepVersions := 2
  selfPid := 7
  discover := .error "unused"
  lockState := none
  pidAlive := fun _ => .ok true
  initialStateFile := none
  removeStagingOk := true
  mkdirStagingOk := true
  downloadResult := .ok ()
  downloadedDigest := [171]
  unzipResult := .ok ()
  sourceDirExists := true
  preInstallResult := .ok ()
  removeVersionDirOk := true
  renameOk := true
  initialCurrent := .absent
  confirmResult := .ok true
  termOutcome := .success
  switchOutcome := .ok true
  binExists := true
  launchResult := .ok ()
  rollbackOutcome := .ok true
  appDirEntries := []
  cleanupFsOk := true
  removeStagingFinalOk := true

/-- `envBase` but the declared `extract_dir` is missing inside the
extracted root (the `RESOLVE_SOURCE_DIR` stat fails). -/
def envNoSourceDir : UpdateEnv :=
  { envBase with sourceDirExists := false }

/-- `envBase` but the runtime state already records the manifest's
version: the fast path is taken. -/
def envFastPath : UpdateEnv :=
  { envBase with
    initialStateFile := some { zeroState with currentVersion := "1.37.0" } }

/-- `envBase` with interactive confirmation enabled and the user
declining, on an installation currently at version `old`. -/
def envDecline : UpdateEnv :=
  { envBase with
    promptSwitch := true
    confirmResult := .ok false
    initialStateFile := some { zeroState with currentVersion := "old" } }

/-- `envDecline` with three old version directories on disk and a
retention count of 1. -/
def envDeclineGC : UpdateEnv :=
  { envDecline with
    appDirEntries := [⟨"v1", true, 1⟩, ⟨"v2", true, 2⟩, ⟨"v3", true, 3⟩]
    keepVersions := 1 }

/-- `envBase` but the new binary does not stat: the health check fails on
a first-time install (no previous `current`). -/
def envHealthFail : UpdateEnv :=
  { envBase with binExists := false }

/-! ### Theorems -/

/-- Helper: a hex digit of a value below 16 is a lowercase hex
character. -/
theorem hexDigit_mem_lower (n : Nat) (h : n < 16) :
    hexDigit n ∈ "0123456789abcdef".toList := by
  interval_cases n <;> decide

/-- Claim C9: `verifySHA256` succeeds iff the lowercase hex SHA-256 digest
of the file equals the expected string canonicalized by stripping any
`sha256:` prefix and lowercasing, and the computed digest string is always
lowercase hex (so an uppercase-hex expected digest is accepted). -/
theorem verifySHA256_ok_iff (digest : List Nat) (expected : String) :
    (verifySHA256 digest expected = .ok () ↔
      hexEncode digest = goToLower (dropSha256Tag expected)) ∧
    (∀ c ∈ (hexEncode digest).toList, c ∈ "0123456789abcdef".toList) := by
  constructor
  · unfold verifySHA256
    by_cases h : hexEncode digest = goToLower (dropSha256Tag expected) <;> simp [h]
  · intro c hc
    have hrep : (hexEncode digest).toList =
        (digest.map (fun b => [hexDigit (b % 256 / 16), hexDigit (b % 16)])).flatten := rfl
    rw [hrep] at hc
    rcases List.mem_flatten.mp hc with ⟨l, hl, hcl⟩
    rcases List.mem_map.mp hl with ⟨b, _, rfl⟩
    rcases List.mem_cons.mp hcl with h1 | h2
    · exact h1 ▸ hexDigit_mem_lower _ (by omega)
    · rcases List.mem_cons.mp h2 with h3 | h4
      · exact h3 ▸ hexDigit_mem_lower _ (by omega)
      · exact absurd h4 (List.not_mem_nil c)

/-- Witness for C9 at a concrete digest and an uppercase tagged expected
string. -/
theorem verifySHA256_ok_iff_witness :
    verifySHA256 [171, 1] "sha256:AB01" = .ok () ∧
    'b' ∈ "0123456789abcdef".toList :=
  ⟨(verifySHA256_ok_iff [171, 1] "sha256:AB01").1.mpr (by decide),
   (verifySHA256_ok_iff [171, 1] "sha256:AB01").2 'b' (by decide)⟩

/-- Claim C5: every path `unzip` writes has the cleaned destination plus a
separator as a prefix, and the first entry violating the guard stops the
extraction with an `invalid zip path` error before any part of that entry
is written (the paths written are exactly those of the preceding
entries). -/
theorem unzip_confines_writes (dst : String) (entries : List ZipEntry) :
    (∀ p ∈ (unzipRun dst entries).1, goHasPre p (goClean dst ++ "/") = true) ∧
    (∀ front e back, entries = front ++ e :: back →
      (∀ f ∈ front, zipEntryOk dst f = true) → zipEntryOk dst e = false →
      unzipRun dst entries =
        (front.map (zipEntryTarget dst), some ("invalid zip path: " ++ e.name))) := by
  constructor
  · induction entries with
    | nil => simp [unzipRun]
    | cons e rest ih =>
      by_cases h : zipEntryOk dst e
      · intro p hp
        rw [unzipRun, if_pos h] at hp
        rcases List.mem_cons.mp hp with rfl | hrest
        · exact h
        · exact ih p hrest
      · intro p hp
        rw [unzipRun, if_neg h] at hp
        exact absurd hp (List.not_mem_nil p)
  · intro front e back heq hfront hbad
    subst heq
    induction front with
    | nil => simp [unzipRun, hbad]
    | cons f fs ih =>
      have hf : zipEntryOk dst f = true := hfront f (by simp)
      have htail := ih (fun x hx => hfront x (by simp [hx]))
      rw [List.cons_append, unzipRun, if_pos hf, htail]
      simp

/-- Witness for C5: a traversal entry aborts extraction after the one
preceding good entry was written inside the destination. -/
theorem unzip_confines_writes_witness :
    unzipRun "/d/out" [⟨"ok/f.txt", false⟩, ⟨"../evil", false⟩, ⟨"after", false⟩] =
      (["/d/out/ok/f.txt"], some "invalid zip path: ../evil") := by
  have h := (unzip_confines_writes "/d/out"
      [⟨"ok/f.txt", false⟩, ⟨"../evil", false⟩, ⟨"after", false⟩]).2
      [⟨"ok/f.txt", false⟩] ⟨"../evil", false⟩ [⟨"after", false⟩]
      rfl (by decide) (by decide)
  exact h

/-- Claim C6: with a pre-existing lock file, acquisition succeeds (writing
the new holder's PID) exactly when the content is a decoded record with a
positive PID whose liveness probe answers `not running`; in every other
conflict case the result is the `update already running` error and the
lock file is left in place. -/
theorem acquireLock_conflict (alive : PidAlive) (self : Int) (c : LockContent) :
    (acquireLock alive self (some c) = (.ok (), some (.info self)) ↔
      ∃ pid, c = .info pid ∧ 0 < pid ∧ alive pid = .ok false) ∧
    ((∀ pid, c = .info pid → 0 < pid → alive pid ≠ .ok false) →
      acquireLock alive self (some c) = (.error "update already running", some c)) := by
  cases c with
  | blank => simp [acquireLock, tryAcquireLock, lockFileIsStale]
  | malformed => simp [acquireLock, tryAcquireLock, lockFileIsStale]
  | info pid =>
    by_cases hp : pid ≤ 0
    · have hres : acquireLock alive self (some (.info pid)) =
          (.error "update already running", some (.info pid)) := by
        unfold acquireLock tryAcquireLock lockFileIsStale
        simp [hp]
      rw [hres]
      constructor
      · constructor
        · intro h
          exact absurd h (by simp)
        · rintro ⟨q, hq, hq2, _⟩
          cases hq
          omega
      · intro _
        rfl
    · rcases ha : alive pid with e | b
      · have hres : acquireLock alive self (some (.info pid)) =
            (.error "update already running", some (.info pid)) := by
          unfold acquireLock tryAcquireLock lockFileIsStale
          simp [hp, ha]
        rw [hres]
        constructor
        · constructor
          · intro h
            exact absurd h (by simp)
          · rintro ⟨q, hq, _, ha2⟩
            cases hq
            rw [ha] at ha2
            exact absurd ha2 (by simp)
        · intro _
          rfl
      · cases b
        · have hres : acquireLock alive self (some (.info pid)) =
              (.ok (), some (.info self)) := by
            unfold acquireLock tryAcquireLock lockFileIsStale
            simp [hp, ha]
          rw [hres]
          constructor
          · constructor
            · intro _
              exact ⟨pid, rfl, by omega, ha⟩
            · intro _
              rfl
          · intro h
            exact absurd ha (h pid rfl (by omega))
        · have hres : acquireLock alive self (some (.info pid)) =
              (.error "update already running", some (.info pid)) := by
            unfold acquireLock tryAcquireLock lockFileIsStale
            simp [hp, ha]
          rw [hres]
          constructor
          · constructor
            · intro h
              exact absurd h (by simp)
            · rintro ⟨q, hq, _, ha2⟩
              cases hq
              rw [ha] at ha2
              exact absurd ha2 (by simp)
          · intro _
            rfl

/-- Witness for C6: a dead positive recorded PID is stale; acquisition
succeeds and the new lock carries the caller's PID. -/
theorem acquireLock_conflict_witness :
    acquireLock (fun _ => .ok false) 7 (some (.info 5)) = (.ok (), some (.info 7)) :=
  (acquireLock_conflict (fun _ => .ok false) 7 (.info 5)).1.mpr
    ⟨5, rfl, by decide, rfl⟩

/-- Counterexample to claim C8 as stated: a target with surrounding
whitespace survives a successful marker-file switch but reads back
trimmed, not exactly equal. -/
theorem switch_roundtrip_counterexample :
    switchCurrent (.ok false) " t" = .ok (.markerDir " t") ∧
    resolveCurrentTarget (.markerDir " t") = "t" ∧
    ("t" == " t") = false := by decide

/-- Claim C8 (amended): if `switchCurrent` succeeds and the target has no
surrounding whitespace then `resolveCurrentTarget` reads back exactly the
target, for both the junction and the marker-file materialisation. -/
theorem switch_resolve_roundtrip (outcome : Except String Bool) (target : String)
    (fs : CurrentFS) (hok : switchCurrent outcome target = .ok fs)
    (htrim : goTrimSpace target = target) :
    resolveCurrentTarget fs = target := by
  rcases outcome with e | b
  · simp [switchCurrent] at hok
  · cases b
    · have : fs = .markerDir target := by
        simpa [switchCurrent] using hok.symm
      subst this
      simpa [resolveCurrentTarget] using htrim
    · have : fs = .junction target := by
        simpa [switchCurrent] using hok.symm
      subst this
      rfl

/-- Witness for C8 at a concrete whitespace-free target through the
marker-file fallback. -/
theorem switch_resolve_roundtrip_witness :
    resolveCurrentTarget (.markerDir "D:/apps/a/v2") = "D:/apps/a/v2" :=
  switch_resolve_roundtrip (.ok false) "D:/apps/a/v2" (.markerDir "D:/apps/a/v2")
    (by decide) (by decide)

/-- Counterexample to claim C2 as stated: when no hash is resolvable the
transaction fails and performs no download, but the failure does not carry
the `MANIFEST_INCOMPLETE` code anywhere — the error message lacks the tag
and nothing is recorded in the runtime state. -/
theorem manifest_incomplete_tag_never_recorded :
    (Update envBase "app" (some manNoHash)).1 =
      .error "manifest 64bit artifact hash is required" ∧
    goContainsSub "manifest 64bit artifact hash is required" "MANIFEST_INCOMPLETE"
      = false ∧
    (Update envBase "app" (some manNoHash)).2.downloadInvoked = false ∧
    (Update envBase "app" (some manNoHash)).2.stateFile = none := by decide

/-- Claim C2 (amended): whenever the resolve stage fails — the manifest
lacks a URL or hash, or discovery replaced the version and no hash could
be restored — `Update` returns that error, never invokes the artifact
download, and leaves the runtime state file untouched. -/
theorem resolve_failure_aborts_before_download (env : UpdateEnv) (app : String)
    (man : Manifest) (e : String) (happ : app ≠ "")
    (hres : resolveStage env man = .error e) :
    (Update env app (some man)).1 = .error e ∧
    (Update env app (some man)).2.downloadInvoked = false ∧
    (Update env app (some man)).2.stateFile = env.initialStateFile := by
  unfold Update
  rw [if_neg happ]
  simp [hres, initialWorld]

/-- Witness for C2 at the concrete hashless manifest. -/
theorem resolve_failure_aborts_before_download_witness :
    (Update envBase "app" (some manNoHash)).1 =
      .error "manifest 64bit artifact hash is required" ∧
    (Update envBase "app" (some manNoHash)).2.downloadInvoked = false ∧
    (Update envBase "app" (some manNoHash)).2.stateFile = envBase.initialStateFile :=
  resolve_failure_aborts_before_download envBase "app" manNoHash
    "manifest 64bit artifact hash is required" (by decide) (by decide)

/-- Counterexample to claim C1 as stated: a `RESOLVE_SOURCE_DIR` failure
(declared `extract_dir` missing inside the extracted root) returns an
error while the persisted runtime state still has `pending_version` set to
the new version and `last_error_code` outside the taxonomy (empty). -/
theorem source_dir_failure_leaves_pending :
    (Update envNoSourceDir "app" (some manA)).1 =
      .error "source extract directory missing: stat failed" ∧
    manA.arch64.extractSubdir = "sub" ∧
    (Update envNoSourceDir "app" (some manA)).2.stateFile.isSome = true ∧
    (persisted (Update envNoSourceDir "app" (some manA)).2).pendingVersion = "1.37.0" ∧
    taxonomyTags.contains
      ((persisted (Update envNoSourceDir "app" (some manA)).2).lastErrorCode) = false := by
  decide

/-- Counterexample to claim C3 as stated: the fast-path success (current
version already equals the effective version) logs `UPDATE_BEGIN` but no
`UPDATE_DONE`, so "contains UPDATE_DONE iff T succeeded" fails. -/
theorem fastpath_success_logs_no_update_done :
    (Update envFastPath "app" (some manA)).1 = .ok () ∧
    (eventNames (Update envFastPath "app" (some manA)).2).contains "UPDATE_BEGIN" = true ∧
    (eventNames (Update envFastPath "app" (some manA)).2).contains "UPDATE_DONE" = false := by
  decide

/-- Counterexample to claim C4 as stated: a user decline is a success exit
that clears `pending_version` but leaves `current_version` at its previous
value, not at the effective version. -/
theorem decline_success_keeps_old_version :
    (Update envDecline "app" (some manA)).1 = .ok () ∧
    resolveStage envDecline manA = .ok (manA, manA.arch64) ∧
    (persisted (Update envDecline "app" (some manA)).2).currentVersion = "old" ∧
    (persisted (Update envDecline "app" (some manA)).2).pendingVersion = "" ∧
    (("old" : String) == manA.version) = false := by
  decide

/-- Counterexample to claim C7 as stated: a user decline is a successful
Update that skips garbage collection entirely, leaving three non-current
`v*` directories with retention 1. -/
theorem decline_success_skips_gc :
    (Update envDeclineGC "app" (some manA)).1 = .ok () ∧
    envDeclineGC.keepVersions = 1 ∧
    (Update envDeclineGC "app" (some manA)).2.removedDirs = [] ∧
    (oldVersionDirs manA.version envDeclineGC.appDirEntries).length = 3 := by
  decide

/-- Claim C10: when there was no previous current pointer (the pre-switch
resolution returned the empty string) and the post-switch health check
fails while every earlier stage succeeded, the rollback is a silent no-op
reporting success: `current` is left pointing at the new version
directory, `last_error_code` is `SWITCH_HEALTHCHECK` (never
`SWITCH_ROLLBACK`), the log records `SWITCH_ROLLBACK_DONE` and no
`SWITCH_ROLLBACK_FAILED`, and `Update` returns the health-check error. -/
theorem firstinstall_healthfail_silent_rollback
    (env : UpdateEnv) (app : String) (man eff : Manifest) (art : Artifact) (b : Bool)
    (happ : app ≠ "")
    (hres : resolveStage env man = .ok (eff, art))
    (hlock : (acquireLock env.pidAlive env.selfPid env.lockState).1 = .ok ())
    (hfast : ¬((loadedState env).currentVersion = eff.version ∧
               (loadedState env).currentVersion ≠ ""))
    (hrs : env.removeStagingOk = true) (hms : env.mkdirStagingOk = true)
    (hdl : env.downloadResult = .ok ())
    (hvf : verifySHA256 env.downloadedDigest art.hash = .ok ())
    (huz : env.unzipResult = .ok ())
    (hsd : env.sourceDirExists = true)
    (hpi : runPreInstall env eff.preInstall = .ok ())
    (hrv : env.removeVersionDirOk = true) (hrn : env.renameOk = true)
    (hpr : env.promptSwitch = false ∨ env.confirmResult = .ok true)
    (htm : env.termOutcome = .success)
    (hsw : env.switchOutcome = .ok b)
    (hprev : resolveCurrentTarget env.initialCurrent = "")
    (hbin : env.binExists = false)
    (hbne : eff.bin ≠ "") :
    (Update env app (some man)).1 =
      .error ("healthcheck missing bin " ++ binPathOf env app eff.bin) ∧
    (persisted (Update env app (some man)).2).lastErrorCode = ErrCodeSwitchHealthcheck ∧
    (persisted (Update env app (some man)).2).pendingVersion = "" ∧
    (Update env app (some man)).2.current =
      (if b then CurrentFS.junction (versionDirOf env app eff.version)
       else CurrentFS.markerDir (versionDirOf env app eff.version)) ∧
    (eventNames (Update env app (some man)).2).contains "SWITCH_ROLLBACK_DONE" = true ∧
    (eventNames (Update env app (some man)).2).contains "SWITCH_ROLLBACK_FAILED" = false := by
  rcases hal : acquireLock env.pidAlive env.selfPid env.lockState with ⟨r, lk⟩
  rw [hal] at hlock
  simp only at hlock
  subst hlock
  have hhc : healthcheckAndRelaunch env eff.bin (binPathOf env app eff.bin) =
      .error ("healthcheck missing bin " ++ binPathOf env app eff.bin) := by
    unfold healthcheckAndRelaunch
    rw [if_neg hbne, hbin]
    simp
  rcases hpr with hps | hco
  · cases b <;>
      simp [Update, happ, hres, hal, hfast, hrs, hms, hdl, hvf, huz, hsd, hpi, hrv, hrn,
        hps, htm, hsw, hhc, hprev, hbin, updateHealthFail, rollbackCurrent,
        switchCurrent, logEv, saveSt, persisted, eventNames, initialWorld]
  · rcases hps : env.promptSwitch <;> cases b <;>
      simp [Update, happ, hres, hal, hfast, hrs, hms, hdl, hvf, huz, hsd, hpi, hrv, hrn,
        hps, hco, htm, hsw, hhc, hprev, hbin, updateHealthFail, rollbackCurrent,
        switchCurrent, logEv, saveSt, persisted, eventNames, initialWorld]

/-- Witness for C10 at the concrete first-install environment whose new
binary is missing. -/
theorem firstinstall_healthfail_silent_rollback_witness :
    (Update envHealthFail "app" (some manA)).1 =
      .error ("healthcheck missing bin " ++ binPathOf envHealthFail "app" manA.bin) ∧
    (persisted (Update envHealthFail "app" (some manA)).2).lastErrorCode =
      ErrCodeSwitchHealthcheck ∧
    (persisted (Update envHealthFail "app" (some manA)).2).pendingVersion = "" ∧
    (Update envHealthFail "app" (some manA)).2.current =
      (if true then CurrentFS.junction (versionDirOf envHealthFail "app" manA.version)
       else CurrentFS.markerDir (versionDirOf envHealthFail "app" manA.version)) ∧
    (eventNames (Update envHealthFail "app" (some manA)).2).contains
      "SWITCH_ROLLBACK_DONE" = true ∧
    (eventNames (Update envHealthFail "app" (some manA)).2).contains
      "SWITCH_ROLLBACK_FAILED" = false :=
  firstinstall_healthfail_silent_rollback envHealthFail "app" manA manA manA.arch64
    true (by decide) (by decide) (by decide) (by decide) rfl rfl rfl (by decide)
    rfl rfl (by decide) rfl rfl (Or.inl rfl) rfl rfl (by decide) rfl (by decide)

/-- Claim C1 (amended): when an update transaction fails at one of the
tagged stages — download, verify, extract, pre-install, prompt, process
stop, current switch, health check or rollback — the persisted runtime
state records a taxonomy error code and an empty `pending_version`.  (The
untagged stages excluded by the hypotheses — resolve, lock, staging
preparation, `RESOLVE_SOURCE_DIR`, `COMMIT_VERSION_DIR`, cleanup and final
staging removal — return without writing a code, which is what the
counterexample exhibits.) -/
theorem update_tagged_failure_state_invariant
    (env : UpdateEnv) (app : String) (man eff : Manifest) (art : Artifact) (e : String)
    (happ : app ≠ "")
    (hres : resolveStage env man = .ok (eff, art))
    (hlock : (acquireLock env.pidAlive env.selfPid env.lockState).1 = .ok ())
    (hrs : env.removeStagingOk = true) (hms : env.mkdirStagingOk = true)
    (hsd : env.sourceDirExists = true)
    (hrv : env.removeVersionDirOk = true) (hrn : env.renameOk = true)
    (hcf : env.cleanupFsOk = true) (hsf : env.removeStagingFinalOk = true)
    (herr : (Update env app (some man)).1 = .error e) :
    (Update env app (some man)).2.stateFile.isSome = true ∧
    (persisted (Update env app (some man)).2).lastErrorCode ∈ taxonomyTags ∧
    (persisted (Update env app (some man)).2).pendingVersion = "" := by
  rcases hal : acquireLock env.pidAlive env.selfPid env.lockState with ⟨r, lk⟩
  rw [hal] at hlock
  simp only at hlock
  subst hlock
  revert herr
  simp [Update, happ, hres, hal, hrs, hms, hsd, hrv, hrn, hcf, hsf,
    initialWorld, logEv, saveSt, updateHealthFail, rollbackCurrent, switchCurrent,
    persisted, taxonomyTags]
  repeat' split
  all_goals simp_all [ErrCodePkgDownload, ErrCodePkgVerify, ErrCodePkgExtract,
    ErrCodeScriptPreInstall, ErrCodeSwitchPrompt, ErrCodeSwitchProcess,
    ErrCodeSwitchCurrent, ErrCodeSwitchHealthcheck, ErrCodeSwitchRollback]

/-- Witness for C1 at a concrete failing download. -/
theorem update_tagged_failure_state_invariant_witness :
    (Update { envBase with downloadResult := .error "boom" } "app" (some manA)).2.stateFile.isSome = true ∧
    (persisted (Update { envBase with downloadResult := .error "boom" } "app" (some manA)).2).lastErrorCode ∈ taxonomyTags ∧
    (persisted (Update { envBase with downloadResult := .error "boom" } "app" (some manA)).2).pendingVersion = "" :=
  update_tagged_failure_state_invariant
    { envBase with downloadResult := .error "boom" } "app" manA manA manA.arch64
    "boom" (by decide) (by decide) (by decide) rfl rfl rfl rfl rfl rfl rfl (by decide)

/-- Claim C4 (amended): on every successful transaction the persisted
`pending_version` is empty, and `current_version` equals the effective
version on every success path except the user-decline exit, which leaves
`current_version` at its previous value. -/
theorem update_success_state
    (env : UpdateEnv) (app : String) (man eff : Manifest) (art : Artifact)
    (happ : app ≠ "")
    (hres : resolveStage env man = .ok (eff, art))
    (hlock : (acquireLock env.pidAlive env.selfPid env.lockState).1 = .ok ())
    (hrs : env.removeStagingOk = true) (hms : env.mkdirStagingOk = true)
    (hsd : env.sourceDirExists = true)
    (hrv : env.removeVersionDirOk = true) (hrn : env.renameOk = true)
    (hcf : env.cleanupFsOk = true) (hsf : env.removeStagingFinalOk = true)
    (hok : (Update env app (some man)).1 = .ok ()) :
    (persisted (Update env app (some man)).2).pendingVersion = "" ∧
    ((env.promptSwitch = true ∧ env.confirmResult = .ok false) →
      (persisted (Update env app (some man)).2).currentVersion =
        (loadedState env).currentVersion) ∧
    (¬(env.promptSwitch = true ∧ env.confirmResult = .ok false) →
      (persisted (Update env app (some man)).2).currentVersion = eff.version) := by
  rcases hal : acquireLock env.pidAlive env.selfPid env.lockState with ⟨r, lk⟩
  rw [hal] at hlock
  simp only at hlock
  subst hlock
  revert hok
  simp [Update, happ, hres, hal, hrs, hms, hsd, hrv, hrn, hcf, hsf,
    initialWorld, logEv, saveSt, updateHealthFail, rollbackCurrent, switchCurrent,
    persisted]
  repeat' split
  all_goals simp_all

/-- Witness for C4 at the concrete happy-path environment. -/
theorem update_success_state_witness :
    (persisted (Update envBase "app" (some manA)).2).pendingVersion = "" ∧
    ((envBase.promptSwitch = true ∧ envBase.confirmResult = .ok false) →
      (persisted (Update envBase "app" (some manA)).2).currentVersion =
        (loadedState envBase).currentVersion) ∧
    (¬(envBase.promptSwitch = true ∧ envBase.confirmResult = .ok false) →
      (persisted (Update envBase "app" (some manA)).2).currentVersion = manA.version) :=
  update_success_state envBase "app" manA manA manA.arch64
    (by decide) (by decide) (by decide) rfl rfl rfl rfl rfl rfl rfl (by decide)

/-- Claim C3 (amended): once the resolve stage has succeeded the log
contains `UPDATE_BEGIN`; it contains `UPDATE_DONE` exactly when the
transaction succeeds through the full switch path (the fast path and the
user-decline success log no `UPDATE_DONE`); and on a tagged-stage failure
(the hypotheses exclude the untagged stages and the prompt failure, which
logs no event) exactly one logged event is named
`<last_error_code>_FAILED`. -/
theorem update_event_log_shape
    (env : UpdateEnv) (app : String) (man eff : Manifest) (art : Artifact)
    (happ : app ≠ "")
    (hres : resolveStage env man = .ok (eff, art))
    (hlock : (acquireLock env.pidAlive env.selfPid env.lockState).1 = .ok ())
    (hrs : env.removeStagingOk = true) (hms : env.mkdirStagingOk = true)
    (hsd : env.sourceDirExists = true)
    (hrv : env.removeVersionDirOk = true) (hrn : env.renameOk = true)
    (hcf : env.cleanupFsOk = true) (hsf : env.removeStagingFinalOk = true)
    (hpe : ∀ msg, env.confirmResult ≠ .error msg) :
    ((eventNames (Update env app (some man)).2).contains "UPDATE_BEGIN" = true) ∧
    (((eventNames (Update env app (some man)).2).contains "UPDATE_DONE" = true) ↔
      ((Update env app (some man)).1 = .ok () ∧
       ¬((loadedState env).currentVersion = eff.version ∧
         (loadedState env).currentVersion ≠ "") ∧
       ¬(env.promptSwitch = true ∧ env.confirmResult = .ok false))) ∧
    (∀ msg, (Update env app (some man)).1 = .error msg →
      ((Update env app (some man)).2.events.filter
        (fun r => r.event ==
          (persisted (Update env app (some man)).2).lastErrorCode ++ "_FAILED")).length
        = 1) := by
  rcases hal : acquireLock env.pidAlive env.selfPid env.lockState with ⟨r, lk⟩
  rw [hal] at hlock
  simp only at hlock
  subst hlock
  simp [Update, happ, hres, hal, hrs, hms, hsd, hrv, hrn, hcf, hsf,
    initialWorld, logEv, saveSt, updateHealthFail, rollbackCurrent, switchCurrent,
    persisted, eventNames, ErrCodePkgDownload, ErrCodePkgVerify, ErrCodePkgExtract,
    ErrCodeScriptPreInstall, ErrCodeSwitchPrompt, ErrCodeSwitchProcess,
    ErrCodeSwitchCurrent, ErrCodeSwitchHealthcheck, ErrCodeSwitchRollback]
  repeat' split
  all_goals simp_all
  all_goals
    intro hv
    simp_all

/-- Witness for C3 at the concrete happy-path environment. -/
theorem update_event_log_shape_witness :
    ((eventNames (Update envBase "app" (some manA)).2).contains "UPDATE_BEGIN" = true) ∧
    (((eventNames (Update envBase "app" (some manA)).2).contains "UPDATE_DONE" = true) ↔
      ((Update envBase "app" (some manA)).1 = .ok () ∧
       ¬((loadedState envBase).currentVersion = manA.version ∧
         (loadedState envBase).currentVersion ≠ "") ∧
       ¬(envBase.promptSwitch = true ∧ envBase.confirmResult = .ok false))) ∧
    (∀ msg, (Update envBase "app" (some manA)).1 = .error msg →
      ((Update envBase "app" (some manA)).2.events.filter
        (fun r => r.event ==
          (persisted (Update envBase "app" (some manA)).2).lastErrorCode ++ "_FAILED")).length
        = 1) :=
  update_event_log_shape envBase "app" manA manA manA.arch64
    (by decide) (by decide) (by decide) rfl rfl rfl rfl rfl rfl rfl
    (fun msg h => by simp [envBase] at h)

/-- Helper: in a strictly mtime-descending list, an element lies in the
suffix past index `k` iff at least `k` elements are more recent. -/
theorem mem_drop_iff_rank (l : List DirEnt)
    (hs : l.Pairwise (fun a b => b.mtime < a.mtime)) (k : Nat) (e : DirEnt)
    (he : e ∈ l) :
    (e ∈ l.drop k ↔ k ≤ (l.filter (fun x => decide (e.mtime < x.mtime))).length) := by
  induction l generalizing k with
  | nil => simp at he
  | cons a t ih =>
    rcases List.pairwise_cons.mp hs with ⟨hhead, htail⟩
    cases k with
    | zero => simpa using he
    | succ k =>
      rcases List.mem_cons.mp he with rfl | het
      · have hnot : e ∉ t.drop k := fun hmem =>
          absurd (hhead e (List.mem_of_mem_drop hmem)) (lt_irrefl _)
        have hfilt : (e :: t).filter (fun x => decide (e.mtime < x.mtime)) = [] := by
          rw [List.filter_eq_nil_iff]
          intro x hx
          rcases List.mem_cons.mp hx with rfl | hxt
          · simp
          · have := hhead x hxt
            simp only [decide_eq_true_eq]
            omega
        rw [List.drop_succ_cons, hfilt]
        simp [hnot]
      · have ha : e.mtime < a.mtime := hhead e het
        have hstep : (a :: t).filter (fun x => decide (e.mtime < x.mtime)) =
            a :: t.filter (fun x => decide (e.mtime < x.mtime)) := by
          simp [List.filter_cons, ha]
        rw [List.drop_succ_cons, hstep]
        have hiff := ih htail k het
        simp only [List.length_cons]
        constructor
        · intro h
          have := hiff.mp h
          omega
        · intro h
          exact hiff.mpr (by omega)

/-- Helper: sorting with the collector's most-recent-first relation is
strictly descending when mtimes are pairwise distinct. -/
theorem insertionSort_strict (old : List DirEnt)
    (hd : old.Pairwise (fun a b => a.mtime ≠ b.mtime)) :
    (old.insertionSort mtimeGE).Pairwise (fun a b => b.mtime < a.mtime) := by
  have hsorted : (old.insertionSort mtimeGE).Pairwise mtimeGE :=
    List.sorted_insertionSort mtimeGE old
  have hperm := List.perm_insertionSort mtimeGE old
  have hne : (old.insertionSort mtimeGE).Pairwise (fun a b => a.mtime ≠ b.mtime) :=
    (List.Perm.pairwise_iff (fun h => Ne.symm h) hperm).mpr hd
  exact (hsorted.and hne).imp (fun h => lt_of_le_of_ne h.1 (Ne.symm h.2))

/-- Helper: the collector removes exactly the old version directories
that are not among the `keepClamp keep` most recent ones. -/
theorem cleanupRemoved_mem_iff (keep : Int) (cv : String) (entries : List DirEnt)
    (hd : (oldVersionDirs cv entries).Pairwise (fun a b => a.mtime ≠ b.mtime))
    (hnod : ((oldVersionDirs cv entries).map (fun x => x.name)).Nodup)
    (e : DirEnt) (he : e ∈ oldVersionDirs cv entries) :
    (e.name ∈ cleanupRemoved keep cv entries ↔
      keepClamp keep ≤
        ((oldVersionDirs cv entries).filter
          (fun x => decide (e.mtime < x.mtime))).length) := by
  have hperm : List.Perm ((oldVersionDirs cv entries).insertionSort mtimeGE)
      (oldVersionDirs cv entries) :=
    List.perm_insertionSort mtimeGE (oldVersionDirs cv entries)
  have hstrict := insertionSort_strict (oldVersionDirs cv entries) hd
  have hlenf : (((oldVersionDirs cv entries).insertionSort mtimeGE).filter
        (fun x => decide (e.mtime < x.mtime))).length =
      ((oldVersionDirs cv entries).filter (fun x => decide (e.mtime < x.mtime))).length :=
    (hperm.filter _).length_eq
  have hrank_lt : ((oldVersionDirs cv entries).filter
      (fun x => decide (e.mtime < x.mtime))).length < (oldVersionDirs cv entries).length :=
    List.length_filter_lt_length_iff_exists.mpr ⟨e, he, by simp⟩
  unfold cleanupRemoved
  by_cases hle : (oldVersionDirs cv entries).length ≤ keepClamp keep
  · rw [if_pos hle]
    simp only [List.not_mem_nil, false_iff]
    omega
  · rw [if_neg hle]
    have hel : e ∈ (oldVersionDirs cv entries).insertionSort mtimeGE :=
      (List.mem_insertionSort mtimeGE).mpr he
    constructor
    · intro hmem
      rcases List.mem_map.mp hmem with ⟨x, hx, hxe⟩
      have hxold : x ∈ oldVersionDirs cv entries :=
        hperm.mem_iff.mp (List.mem_of_mem_drop hx)
      have hxeq : x = e := List.inj_on_of_nodup_map hnod hxold he hxe
      subst hxeq
      have := (mem_drop_iff_rank _ hstrict (keepClamp keep) x hel).mp hx
      omega
    · intro hrank
      have hmem := (mem_drop_iff_rank _ hstrict (keepClamp keep) e hel).mpr
        (by omega)
      exact List.mem_map.mpr ⟨e, hmem, rfl⟩

/-- Helper: at most `keepClamp keep` old version directories survive the
collector. -/
theorem cleanupRemoved_retained_le (keep : Int) (cv : String) (entries : List DirEnt) :
    ((oldVersionDirs cv entries).filter
      (fun e => !((cleanupRemoved keep cv entries).contains e.name))).length ≤
      keepClamp keep := by
  unfold cleanupRemoved
  by_cases hle : (oldVersionDirs cv entries).length ≤ keepClamp keep
  · rw [if_pos hle]
    calc ((oldVersionDirs cv entries).filter _).length
        ≤ (oldVersionDirs cv entries).length := List.length_filter_le _ _
      _ ≤ keepClamp keep := hle
  · rw [if_neg hle]
    have hperm : List.Perm ((oldVersionDirs cv entries).insertionSort mtimeGE)
        (oldVersionDirs cv entries) :=
      List.perm_insertionSort mtimeGE (oldVersionDirs cv entries)
    set l := (oldVersionDirs cv entries).insertionSort mtimeGE with hl
    set rem := (l.drop (keepClamp keep)).map (fun e => e.name) with hrem
    have hlen : ((oldVersionDirs cv entries).filter (fun e => !(rem.contains e.name))).length =
        (l.filter (fun e => !(rem.contains e.name))).length :=
      ((hperm.filter _).length_eq).symm
    rw [hlen]
    have hsplit : l = l.take (keepClamp keep) ++ l.drop (keepClamp keep) :=
      (List.take_append_drop _ _).symm
    rw [hsplit, List.filter_append, List.length_append]
    have hdropnil : (l.drop (keepClamp keep)).filter (fun e => !(rem.contains e.name)) = [] := by
      rw [List.filter_eq_nil_iff]
      intro x hx
      have hmem : x.name ∈ rem := List.mem_map.mpr ⟨x, hx, rfl⟩
      simp [List.contains, List.elem_iff, hmem]
    rw [hdropnil]
    simp only [List.length_nil, Nat.add_zero]
    calc ((l.take (keepClamp keep)).filter (fun e => !(rem.contains e.name))).length
        ≤ (l.take (keepClamp keep)).length := List.length_filter_le _ _
      _ ≤ keepClamp keep := by rw [List.length_take]; omega

/-- Helper: a filtered count is bounded by splitting along a second
predicate. -/
theorem filter_split_le (l : List DirEnt) (p q : DirEnt → Bool) :
    (l.filter p).length ≤
      (l.filter q).length + (l.filter (fun a => p a && !q a)).length := by
  induction l with
  | nil => simp
  | cons a t ih =>
    simp only [List.filter_cons]
    cases hq : q a <;> cases hp : p a <;> simp [hq, hp] <;> omega

/-- Helper: with distinct entry names at most one entry bears a given
name. -/
theorem filter_name_le_one (entries : List DirEnt) (cur : String)
    (hnod : (entries.map (fun x => x.name)).Nodup) :
    (entries.filter (fun x => x.name == cur)).length ≤ 1 := by
  rw [← List.countP_eq_length_filter]
  have h1 := (List.nodup_iff_count_le_one.mp hnod) cur
  rw [List.count_eq_countP, List.countP_map] at h1
  simpa [Function.comp] using h1

/-- Helper: every successful non-declined transaction runs the collector
on the app directory listing with the effective version as current. -/
theorem update_success_removed
    (env : UpdateEnv) (app : String) (man eff : Manifest) (art : Artifact)
    (happ : app ≠ "")
    (hres : resolveStage env man = .ok (eff, art))
    (hlock : (acquireLock env.pidAlive env.selfPid env.lockState).1 = .ok ())
    (hrs : env.removeStagingOk = true) (hms : env.mkdirStagingOk = true)
    (hsd : env.sourceDirExists = true)
    (hrv : env.removeVersionDirOk = true) (hrn : env.renameOk = true)
    (hcf : env.cleanupFsOk = true) (hsf : env.removeStagingFinalOk = true)
    (hnd : ¬(env.promptSwitch = true ∧ env.confirmResult = .ok false))
    (hok : (Update env app (some man)).1 = .ok ()) :
    (Update env app (some man)).2.removedDirs =
      cleanupRemoved env.keepVersions eff.version env.appDirEntries := by
  rcases hal : acquireLock env.pidAlive env.selfPid env.lockState with ⟨r, lk⟩
  rw [hal] at hlock
  simp only at hlock
  subst hlock
  revert hok
  simp [Update, happ, hres, hal, hrs, hms, hsd, hrv, hrn, hcf, hsf,
    initialWorld, logEv, saveSt, updateHealthFail, rollbackCurrent, switchCurrent]
  repeat' split
  all_goals simp_all

/-- Claim C7 (amended): after a successful transaction that was not a
user-decline exit, with pairwise-distinct modification times and distinct
entry names, exactly the `K` most recent non-current `v*` directories are
retained (everything of lower rank is removed), and at most `K+1` `v*`
directories remain in total; a negative `KeepVersions` acts as 0 via
`keepClamp`. -/
theorem update_success_gc_retention
    (env : UpdateEnv) (app : String) (man eff : Manifest) (art : Artifact)
    (happ : app ≠ "")
    (hres : resolveStage env man = .ok (eff, art))
    (hlock : (acquireLock env.pidAlive env.selfPid env.lockState).1 = .ok ())
    (hrs : env.removeStagingOk = true) (hms : env.mkdirStagingOk = true)
    (hsd : env.sourceDirExists = true)
    (hrv : env.removeVersionDirOk = true) (hrn : env.renameOk = true)
    (hcf : env.cleanupFsOk = true) (hsf : env.removeStagingFinalOk = true)
    (hok : (Update env app (some man)).1 = .ok ())
    (hnd : ¬(env.promptSwitch = true ∧ env.confirmResult = .ok false))
    (hd : (oldVersionDirs eff.version env.appDirEntries).Pairwise
      (fun a b => a.mtime ≠ b.mtime))
    (hnodAll : (env.appDirEntries.map (fun x => x.name)).Nodup) :
    (∀ ent ∈ oldVersionDirs eff.version env.appDirEntries,
      (ent.name ∈ (Update env app (some man)).2.removedDirs ↔
        keepClamp env.keepVersions ≤
          ((oldVersionDirs eff.version env.appDirEntries).filter
            (fun x => decide (ent.mtime < x.mtime))).length)) ∧
    ((env.appDirEntries.filter
        (fun x => x.isDir && goHasPre x.name "v" &&
          !((Update env app (some man)).2.removedDirs.contains x.name))).length ≤
      keepClamp env.keepVersions + 1) := by
  have hrem := update_success_removed env app man eff art happ hres hlock hrs hms
    hsd hrv hrn hcf hsf hnd hok
  rw [hrem]
  have hnodOld : ((oldVersionDirs eff.version env.appDirEntries).map
      (fun x => x.name)).Nodup :=
    List.Nodup.sublist ((List.filter_sublist _).map _) hnodAll
  constructor
  · intro ent hent
    exact cleanupRemoved_mem_iff env.keepVersions eff.version env.appDirEntries
      hd hnodOld ent hent
  · have hsplit := filter_split_le env.appDirEntries
      (fun x => x.isDir && goHasPre x.name "v" &&
        !((cleanupRemoved env.keepVersions eff.version env.appDirEntries).contains x.name))
      (fun x => x.name == "v" ++ eff.version)
    have h1 : (env.appDirEntries.filter
        (fun x => x.name == "v" ++ eff.version)).length ≤ 1 :=
      filter_name_le_one env.appDirEntries _ hnodAll
    have hre : env.appDirEntries.filter
        (fun a => (a.isDir && goHasPre a.name "v" &&
          !((cleanupRemoved env.keepVersions eff.version env.appDirEntries).contains a.name)) &&
          !(a.name == "v" ++ eff.version)) =
        (oldVersionDirs eff.version env.appDirEntries).filter
          (fun e => !((cleanupRemoved env.keepVersions eff.version env.appDirEntries).contains e.name)) := by
      unfold oldVersionDirs
      rw [List.filter_filter]
      apply List.filter_congr
      intro x _
      cases hb : x.isDir <;> cases hv : goHasPre x.name "v" <;>
        by_cases hc : x.name = "v" ++ eff.version <;>
        simp [hb, hv, hc]
    have h2 : ((oldVersionDirs eff.version env.appDirEntries).filter
        (fun e => !((cleanupRemoved env.keepVersions eff.version env.appDirEntries).contains e.name))).length ≤
        keepClamp env.keepVersions :=
      cleanupRemoved_retained_le _ _ _
    rw [hre] at hsplit
    omega

/-- Witness for C7: three old version directories with retention 1 on a
successful install leave at most two `v*` directories. -/
theorem update_success_gc_retention_witness :
    (({ envBase with
        appDirEntries := [⟨"v1", true, 1⟩, ⟨"v2", true, 2⟩, ⟨"v3", true, 3⟩]
        keepVersions := 1 } : UpdateEnv).appDirEntries.filter
      (fun x => x.isDir && goHasPre x.name "v" &&
        !((Update
            { envBase with
              appDirEntries := [⟨"v1", true, 1⟩, ⟨"v2", true, 2⟩, ⟨"v3", true, 3⟩]
              keepVersions := 1 } "app" (some manA)).2.removedDirs.contains
          x.name))).length ≤
    keepClamp ({ envBase with
        appDirEntries := [⟨"v1", true, 1⟩, ⟨"v2", true, 2⟩, ⟨"v3", true, 3⟩]
        keepVersions := 1 } : UpdateEnv).keepVersions + 1 :=
  (update_success_gc_retention
    { envBase with
      appDirEntries := [⟨"v1", true, 1⟩, ⟨"v2", true, 2⟩, ⟨"v3", true, 3⟩]
      keepVersions := 1 } "app" manA manA manA.arch64
    (by decide) (by decide) (by decide) rfl rfl rfl rfl rfl rfl rfl
    (by decide) (by decide) (by decide) (by decide)).2

end Appstract
